import Mathlib

/-!
Verification of the Langcon input-method reconciliation engine.

The definitions below are a shallow embedding of the Rust sources:
`src-tauri/src/ime.rs` (IME status type), `src-tauri/src/process.rs`
(process identity), `src-tauri/src/config.rs` (configuration),
`src-tauri/src/state.rs` (shared application state and its operations)
and `src-tauri/src/monitor.rs` (one iteration of the polling loop).
Machine floats (`f32`) are modelled by rationals; wall-clock instants by
integer milliseconds; the external oracles and the actuator are passed in
as explicit parameters of a tick.
-/

namespace Langcon

/-- `ImeStatus` from `ime.rs`: English (target), Original (Korean), Unknown. -/
inductive ImeStatus where
  | English
  | Original
  | Unknown
deriving DecidableEq

/-- `ProcessInfo` from `process.rs`: {pid, name, title}. -/
structure ProcessInfo where
  pid : Nat
  name : String
  title : String
deriving DecidableEq

/-- Insertion into a key-sorted association list: the model of
`serde_json::Map::insert` (a `BTreeMap` keyed by strings). -/
def mapInsert (k v : String) : List (String × String) → List (String × String)
  | [] => [(k, v)]
  | (k0, v0) :: rest =>
    if k < k0 then (k, v) :: (k0, v0) :: rest
    else if k = k0 then (k, v) :: rest
    else (k0, v0) :: mapInsert k v rest

/-- `StatusMessage` from `state.rs`: a key plus a map of named parameters,
modelled as a key-sorted association list. -/
structure StatusMessage where
  key : String
  values : List (String × String)
deriving DecidableEq

/-- `StatusMessage::with_values` from `state.rs`: build a message by
inserting each pair into an initially empty map. -/
def StatusMessage.withValues (key : String)
    (pairs : List (String × String)) : StatusMessage :=
  ⟨key, pairs.foldl (fun m kv => mapInsert kv.1 kv.2 m) []⟩

/-- `FocusSnapshotInternal` from `state.rs` (the timestamp is an integer
millisecond count). -/
structure FocusSnapshotInternal where
  process : Option ProcessInfo
  ime_status : ImeStatus
  manual_override : Bool
  updated_at : Int
deriving DecidableEq

/-- `StatusRecord` from `state.rs`: the single remembered message and its
emission time. -/
structure StatusRecord where
  message : StatusMessage
  atTime : Int
deriving DecidableEq

/-- `FALLBACK_LANGUAGE` from `config.rs`. -/
def FALLBACK_LANGUAGE : String := "en"

/-- `SUPPORTED_LANGUAGES` from `config.rs`. -/
def SUPPORTED_LANGUAGES : List String := ["en", "ko", "ja", "zh"]

/-- `sanitize_language` from `config.rs`. -/
def sanitize_language (value : String) : String :=
  let lower := value.toLower
  if lower ∈ SUPPORTED_LANGUAGES then lower else FALLBACK_LANGUAGE

/-- `AppConfig` from `config.rs`; the two `f32` fields are rationals. -/
structure AppConfig where
  selected_processes : List String
  use_auto_to_en : Bool
  use_mouse_move_event : Bool
  detect_interval_secs : ℚ
  mouse_sensitivity : ℚ
  in_english : Bool
  start_with_windows : Bool
  language : String
deriving DecidableEq

/-- `AppConfig::default` from `config.rs`. -/
def AppConfig.default : AppConfig :=
  { selected_processes := []
    use_auto_to_en := true
    use_mouse_move_event := true
    detect_interval_secs := 1 / 2
    mouse_sensitivity := 100
    in_english := false
    start_with_windows := false
    language := FALLBACK_LANGUAGE }

/-- Stable insertion of a string into a sorted list (model of `Vec::sort`
on strings, built up by folding). -/
def insertSorted (x : String) : List String → List String
  | [] => [x]
  | y :: ys => if x ≤ y then x :: y :: ys else y :: insertSorted x ys

/-- Sorting a list of strings (model of `Vec::sort`). -/
def sortList (l : List String) : List String := l.foldr insertSorted []

/-- `Vec::dedup`: drop adjacent duplicates. -/
def dedupAdj : List String → List String
  | [] => []
  | [x] => [x]
  | x :: y :: rest =>
    if x = y then dedupAdj (y :: rest) else x :: dedupAdj (y :: rest)

/-- `AppConfig::normalize` from `config.rs`. -/
def AppConfig.normalize (cfg : AppConfig) : AppConfig :=
  { cfg with
    detect_interval_secs :=
      if cfg.detect_interval_secs ≤ 0 then 1 / 2 else cfg.detect_interval_secs
    mouse_sensitivity :=
      if cfg.mouse_sensitivity ≤ 0 then 100 else cfg.mouse_sensitivity
    language := sanitize_language cfg.language
    selected_processes := dedupAdj (sortList cfg.selected_processes) }

/-- `AppState` from `state.rs`.  The `manual_overrides` `HashSet<String>`
is a `Finset String`; the config manager handle is dropped (persistence is
modelled as an explicit output of `save_changes`). -/
structure AppState where
  saved_config : AppConfig
  draft_config : AppConfig
  available_processes : List ProcessInfo
  focus : Option FocusSnapshotInternal
  manual_overrides : Finset String
  pending_process_refresh : Bool
  last_cursor_pos : Option (Int × Int)
  last_status_message : Option StatusMessage
  last_status_record : Option StatusRecord
  dirty : Bool
deriving DecidableEq

/-- `AppState::new` from `state.rs`. -/
def AppState.new (config : AppConfig) : AppState :=
  { saved_config := config
    draft_config := config
    available_processes := []
    focus := none
    manual_overrides := ∅
    pending_process_refresh := true
    last_cursor_pos := none
    last_status_message := none
    last_status_record := none
    dirty := false }

/-- `AppState::active_config`. -/
def AppState.active_config (st : AppState) : AppConfig := st.saved_config

/-- `AppState::manual_override_for`. -/
def AppState.manual_override_for (st : AppState) (process_name : String) : Bool :=
  decide (process_name ∈ st.manual_overrides)

/-- `AppState::set_focus`. -/
def AppState.set_focus (st : AppState)
    (focus : Option FocusSnapshotInternal) : AppState :=
  { st with focus := focus }

/-- `AppState::set_manual_override` from `state.rs`: insert or remove the
name from the override set, and mirror the flag into the current focus
snapshot when it refers to the same process. -/
def AppState.set_manual_override (st : AppState) (process_name : String)
    (enabled : Bool) : AppState :=
  let overrides :=
    if enabled then insert process_name st.manual_overrides
    else st.manual_overrides.erase process_name
  let focus :=
    match st.focus with
    | some snap =>
      match snap.process with
      | some p =>
        if p.name = process_name then
          some { snap with manual_override := enabled }
        else some snap
      | none => some snap
    | none => none
  { st with manual_overrides := overrides, focus := focus }

/-- `AppState::should_emit_status` from `state.rs` (`now` is the wall
clock that `Local::now()` would read). -/
def AppState.should_emit_status (st : AppState) (message : StatusMessage)
    (cooldown_ms now : Int) : Bool :=
  match st.last_status_record with
  | some record =>
    if record.message.key = message.key ∧ record.message.values = message.values
    then decide (now - record.atTime ≥ cooldown_ms)
    else true
  | none => true

/-- `AppState::record_status` from `state.rs`. -/
def AppState.record_status (st : AppState) (message : StatusMessage)
    (now : Int) : AppState :=
  { st with last_status_record := some ⟨message, now⟩ }

/-- `AppState::save_changes` from `state.rs`.  `saveOk` is whether the
external `ConfigManager::save` call succeeds; the third component is the
configuration handed to persistent storage (`none` when no write was
attempted). -/
def AppState.save_changes (st : AppState) (saveOk : Bool) :
    AppState × Except Unit Bool × Option AppConfig :=
  if st.dirty = false then (st, Except.ok false, none)
  else
    let cfg := st.draft_config.normalize
    if saveOk then
      ({ st with
          saved_config := cfg
          draft_config := cfg
          manual_overrides :=
            st.manual_overrides.filter (fun n => n ∈ cfg.selected_processes)
          dirty := false },
        Except.ok true, some cfg)
    else (st, Except.error (), some cfg)

/-- `AppState::add_selected_process` from `state.rs`. -/
def AppState.add_selected_process (st : AppState) (name : String) :
    AppState × Bool :=
  if name ∈ st.draft_config.selected_processes then (st, false)
  else
    ({ st with
        draft_config := { st.draft_config with
          selected_processes :=
            dedupAdj (sortList (st.draft_config.selected_processes ++ [name])) }
        dirty := true },
      true)

/-- `AppState::remove_selected_process` from `state.rs`: retain the other
names in the draft list, report whether anything was removed, and delete
the override entry unconditionally. -/
def AppState.remove_selected_process (st : AppState) (name : String) :
    AppState × Bool :=
  let newList :=
    st.draft_config.selected_processes.filter (fun p => decide (p ≠ name))
  let removed :=
    decide (newList.length ≠ st.draft_config.selected_processes.length)
  ({ st with
      draft_config := { st.draft_config with selected_processes := newList }
      dirty := if removed then true else st.dirty
      manual_overrides := st.manual_overrides.erase name },
    removed)

/-- Squared cursor displacement in pixel units. -/
def distSq (a b : Int × Int) : Int := (a.1 - b.1) ^ 2 + (a.2 - b.2) ^ 2

/-- `distance` from `monitor.rs`: the Euclidean distance
`sqrt((x1-x2)^2 + (y1-y2)^2)` between two cursor positions. -/
noncomputable def distance (a b : Int × Int) : ℝ :=
  Real.sqrt ((distSq a b : ℤ) : ℝ)

/-- Executable form of the threshold test `distance(prev, cur) >=
sensitivity` from `monitor.rs`, phrased on squares (equivalent to the
square-root comparison; see `cursorMovedAtLeast_iff_distance`). -/
def cursorMovedAtLeast (a b : Int × Int) (sensitivity : ℚ) : Bool :=
  decide (sensitivity ≤ 0 ∨ sensitivity ^ 2 ≤ ((distSq a b : ℤ) : ℚ))

/-- `STATUS_COOLDOWN_MS` from `monitor.rs`. -/
def STATUS_COOLDOWN_MS : Int := 1000

/-- The mouse-move status message built at `monitor.rs:140`. -/
def mouseMoveMsg (name : String) : StatusMessage :=
  StatusMessage.withValues "toast.status.mouseMove" [("name", name)]

/-- The auto-switch status message built at `monitor.rs:154`. -/
def autoSwitchMsg (name : String) : StatusMessage :=
  StatusMessage.withValues "toast.status.autoSwitch" [("name", name)]

/-- Result of the per-tick decision phase (`monitor.rs:102-148`): the
final value of `manual_change`, `should_switch`, the queued status
message and the updated cursor position. -/
structure Decision where
  manualChange : Bool
  shouldSwitch : Bool
  statusMessage : Option StatusMessage
  newCursor : Option (Int × Int)
deriving DecidableEq

/-- The guard of the hysteresis rule (`monitor.rs:108-116`): the previous
snapshot exists, carries a process of the same name, its observed mode was
English and the current reading is Original. -/
def hysteresisCond (prev : Option FocusSnapshotInternal) (name : String)
    (ime : ImeStatus) : Bool :=
  match prev with
  | some p =>
    match p.process with
    | some pp =>
      decide (pp.name = name) && decide (p.ime_status = ImeStatus.English) &&
        decide (ime = ImeStatus.Original)
    | none => false
  | none => false

/-- The selected-process block of the decision (`monitor.rs:107-129`):
hysteresis, self-clear, then switch eligibility.  Returns the updated
`manual_change` and `should_switch`. -/
def selectedStage (processSelected useAuto : Bool)
    (prev : Option FocusSnapshotInternal) (name : String) (ime : ImeStatus)
    (m0 : Bool) : Bool × Bool :=
  if processSelected then
    let m1 := if hysteresisCond prev name ime then true else m0
    let m2 := if m1 && decide (ime = ImeStatus.English) then false else m1
    let sw := useAuto &&
      (decide (ime = ImeStatus.Original) || decide (ime = ImeStatus.Unknown)) &&
      !m2
    (m2, sw)
  else (m0, false)

/-- The cursor-movement block of the decision (`monitor.rs:131-148`). -/
def mouseStage (processSelected useMouse : Bool) (sensitivity : ℚ)
    (lastCursor reading : Option (Int × Int)) (name : String)
    (ime : ImeStatus) (m : Bool) (sw : Bool) : Decision :=
  if processSelected && useMouse then
    match reading with
    | some position =>
      match lastCursor with
      | some prev =>
        if cursorMovedAtLeast prev position sensitivity then
          if decide (ime = ImeStatus.Original) || decide (ime = ImeStatus.Unknown)
          then ⟨false, true, some (mouseMoveMsg name), some position⟩
          else ⟨false, sw, none, some position⟩
        else ⟨m, sw, none, some position⟩
      | none => ⟨m, sw, none, some position⟩
    | none => ⟨m, sw, none, lastCursor⟩
  else ⟨m, sw, none, lastCursor⟩

/-- The whole decision phase of one tick (`monitor.rs:102-148`), fed the
configuration snapshot, previous focus snapshot, the override-set lookup
for the focused process, and the oracle readings. -/
def tickDecision (cfg : AppConfig) (prev : Option FocusSnapshotInternal)
    (overrideActive : Bool) (name : String) (ime : ImeStatus)
    (lastCursor reading : Option (Int × Int)) : Decision :=
  let processSelected := decide (name ∈ cfg.selected_processes)
  let msw := selectedStage processSelected cfg.use_auto_to_en prev name ime
    overrideActive
  mouseStage processSelected cfg.use_mouse_move_event cfg.mouse_sensitivity
    lastCursor reading name ime msw.1 msw.2

/-- The actuator block (`monitor.rs:150-164`): when switching, a reported
toggle replaces the queued message with the auto-switch message; a no-op
or an actuator error leaves the queued message as is. -/
def actStage (shouldSwitch : Bool) (act : Except Unit Bool) (name : String)
    (message : Option StatusMessage) : Option StatusMessage :=
  if shouldSwitch then
    match act with
    | Except.ok true => some (autoSwitchMsg name)
    | Except.ok false => message
    | Except.error _ => message
  else message

/-- Events emitted by a tick through the external sink. -/
inductive TickEvent where
  | focusChanged (snap : Option FocusSnapshotInternal)
  | statusMessage (message : StatusMessage)
deriving DecidableEq

/-- Output of one tick: the committed state, the emitted events, and
whether the actuator (`ensure_english`) was invoked. -/
structure TickOutput where
  state : AppState
  events : List TickEvent
  actuatorInvoked : Bool
deriving DecidableEq

/-- The commit block (`monitor.rs:166-198`): write the override flag and
the new focus snapshot, update the cursor, pass any queued message through
the debouncer, then emit the focus-changed event and the surviving status
message. -/
def commitStage (st : AppState) (proc : ProcessInfo) (ime : ImeStatus)
    (manualChange : Bool) (newCursor : Option (Int × Int))
    (message : Option StatusMessage) (now : Int) (invoked : Bool) :
    TickOutput :=
  let st1 := st.set_manual_override proc.name manualChange
  let st2 := st1.set_focus (some ⟨some proc, ime, manualChange, now⟩)
  let st3 := { st2 with last_cursor_pos := newCursor }
  let step :=
    match message with
    | some m =>
      if st3.should_emit_status m STATUS_COOLDOWN_MS now then
        (st3.record_status m now, some m)
      else (st3, none)
    | none => (st3, none)
  let focusEvents :=
    match step.1.focus with
    | some snap => [TickEvent.focusChanged (some snap)]
    | none => []
  let statusEvents :=
    match step.2 with
    | some m => [TickEvent.statusMessage m]
    | none => []
  ⟨step.1, focusEvents ++ statusEvents, invoked⟩

/-- Outcome of `active_window_info()` as the tick sees it: a focused
process, no focused window, or a query error. -/
inductive WindowQueryResult where
  | ok (window : Option ProcessInfo)
  | err
deriving DecidableEq

/-- One iteration of `run_loop` (`monitor.rs:90-206`; the process-list
refresh prelude is independent of everything modelled here and omitted).
`ime` is the `ime_status` reading (an error defaults to `Unknown` at
`monitor.rs:92`), `reading` the cursor oracle, `act` what the actuator
returns if invoked, `now` the wall clock. -/
def runTick (st : AppState) (win : WindowQueryResult) (ime : ImeStatus)
    (reading : Option (Int × Int)) (act : Except Unit Bool) (now : Int) :
    TickOutput :=
  match win with
  | WindowQueryResult.ok (some proc) =>
    let d := tickDecision st.saved_config st.focus
      (st.manual_override_for proc.name) proc.name ime st.last_cursor_pos
      reading
    let message := actStage d.shouldSwitch act proc.name d.statusMessage
    commitStage st proc ime d.manualChange d.newCursor message now
      d.shouldSwitch
  | WindowQueryResult.ok none =>
    ⟨st.set_focus none, [TickEvent.focusChanged none], false⟩
  | WindowQueryResult.err => ⟨st, [], false⟩

/-- The OverrideSet invariant from the specification: every tracked name
is in the active (saved) selected-process allowlist. -/
def OverrideInvariant (st : AppState) : Prop :=
  ∀ n ∈ st.manual_overrides, n ∈ st.saved_config.selected_processes

instance (st : AppState) : Decidable (OverrideInvariant st) := by
  unfold OverrideInvariant; infer_instance

/-- The notepad process of Scenario A. -/
def notepad : ProcessInfo := ⟨1234, "notepad.exe", "Untitled - Notepad"⟩

/-- The Scenario A configuration: auto-switch enabled, `notepad.exe`
selected, everything else at its default. -/
def scenarioConfig : AppConfig :=
  { AppConfig.default with selected_processes := ["notepad.exe"] }

/-- The Scenario A starting state: fresh state, no prior snapshot. -/
def scenarioState : AppState := AppState.new scenarioConfig

/-- A state with a previous focus snapshot on `notepad.exe` in English
mode, for exercising the query-error branch. -/
def priorFocusState : AppState :=
  { AppState.new scenarioConfig with
    focus := some ⟨some notepad, ImeStatus.English, false, 0⟩ }

/-- A process outside every selected list used in the concrete states. -/
def fooProc : ProcessInfo := ⟨7, "foo.exe", "Foo"⟩

/-- A state whose override set contains a name that is not selected
(reachable through the public `set_manual_override` command). -/
def strayOverrideState : AppState :=
  { AppState.new AppConfig.default with manual_overrides := {"foo.exe"} }

/-- A state with a previous English-mode snapshot on a process that is
not selected. -/
def unselectedPrevState : AppState :=
  { AppState.new AppConfig.default with
    focus := some ⟨some notepad, ImeStatus.English, false, 0⟩ }

/-- The configuration for the cursor-boundary scenario: `notepad.exe`
selected, mouse events on, sensitivity 5 pixels. -/
def boundaryConfig : AppConfig :=
  { AppConfig.default with
    selected_processes := ["notepad.exe"]
    mouse_sensitivity := 5 }

/-- A state where `notepad.exe` is selected and carries an active manual
override. -/
def selectedOverrideState : AppState :=
  { AppState.new scenarioConfig with manual_overrides := {"notepad.exe"} }

/-- A state with unsaved draft changes. -/
def dirtyState : AppState :=
  { AppState.new AppConfig.default with dirty := true }

/-! ## Helper lemmas -/

theorem distSq_nonneg (a b : Int × Int) : 0 ≤ distSq a b := by
  unfold distSq; positivity

/-- The executable square comparison agrees with the square-root form of
the threshold test in `monitor.rs`. -/
theorem cursorMovedAtLeast_iff_distance (a b : Int × Int) (s : ℚ) :
    cursorMovedAtLeast a b s = true ↔ (s : ℝ) ≤ distance a b := by
  unfold cursorMovedAtLeast distance
  rw [decide_eq_true_iff]
  constructor
  · rintro (hs | hs)
    · calc ((s : ℝ)) ≤ 0 := by exact_mod_cast hs
        _ ≤ Real.sqrt ((distSq a b : ℤ) : ℝ) := Real.sqrt_nonneg _
    · rcases le_or_lt (s : ℝ) 0 with h0 | h0
      · exact h0.trans (Real.sqrt_nonneg _)
      · rw [Real.le_sqrt' h0]
        exact_mod_cast hs
  · intro h
    rcases le_or_lt s 0 with h0 | h0
    · exact Or.inl h0
    · right
      have h0' : (0 : ℝ) < (s : ℝ) := by exact_mod_cast h0
      have hsq : ((s : ℝ)) ^ 2 ≤ ((distSq a b : ℤ) : ℝ) := by
        rw [← Real.le_sqrt' h0']
        exact h
      exact_mod_cast hsq

theorem manual_override_for_true (st : AppState) (name : String) :
    st.manual_override_for name = true ↔ name ∈ st.manual_overrides := by
  unfold AppState.manual_override_for
  exact decide_eq_true_iff

theorem commitStage_overrides (st : AppState) (proc : ProcessInfo)
    (ime : ImeStatus) (m : Bool) (nc : Option (Int × Int))
    (msg : Option StatusMessage) (now : Int) (inv : Bool) :
    (commitStage st proc ime m nc msg now inv).state.manual_overrides =
      (if m then insert proc.name st.manual_overrides
       else st.manual_overrides.erase proc.name) := by
  unfold commitStage AppState.set_manual_override AppState.set_focus
    AppState.record_status
  cases msg with
  | none => rfl
  | some m' =>
    dsimp only
    split <;> split <;> rfl

theorem commitStage_focus (st : AppState) (proc : ProcessInfo)
    (ime : ImeStatus) (m : Bool) (nc : Option (Int × Int))
    (msg : Option StatusMessage) (now : Int) (inv : Bool) :
    (commitStage st proc ime m nc msg now inv).state.focus =
      some ⟨some proc, ime, m, now⟩ := by
  unfold commitStage AppState.set_manual_override AppState.set_focus
    AppState.record_status
  cases msg with
  | none => rfl
  | some m' =>
    dsimp only
    split <;> split <;> rfl

theorem commitStage_saved (st : AppState) (proc : ProcessInfo)
    (ime : ImeStatus) (m : Bool) (nc : Option (Int × Int))
    (msg : Option StatusMessage) (now : Int) (inv : Bool) :
    (commitStage st proc ime m nc msg now inv).state.saved_config =
      st.saved_config := by
  unfold commitStage AppState.set_manual_override AppState.set_focus
    AppState.record_status
  cases msg with
  | none => rfl
  | some m' =>
    dsimp only
    split <;> split <;> rfl

theorem commitStage_invoked (st : AppState) (proc : ProcessInfo)
    (ime : ImeStatus) (m : Bool) (nc : Option (Int × Int))
    (msg : Option StatusMessage) (now : Int) (inv : Bool) :
    (commitStage st proc ime m nc msg now inv).actuatorInvoked = inv := rfl

theorem tickDecision_not_selected (cfg : AppConfig)
    (prev : Option FocusSnapshotInternal) (m0 : Bool) (name : String)
    (ime : ImeStatus) (lastCursor reading : Option (Int × Int))
    (h : name ∉ cfg.selected_processes) :
    tickDecision cfg prev m0 name ime lastCursor reading =
      ⟨m0, false, none, lastCursor⟩ := by
  unfold tickDecision selectedStage mouseStage
  simp [decide_eq_false h]

theorem runTick_overrides (st : AppState) (proc : ProcessInfo)
    (ime : ImeStatus) (reading : Option (Int × Int)) (act : Except Unit Bool)
    (now : Int) :
    (runTick st (WindowQueryResult.ok (some proc)) ime reading act now).state.manual_overrides =
      (if (tickDecision st.saved_config st.focus
            (st.manual_override_for proc.name) proc.name ime
            st.last_cursor_pos reading).manualChange then
        insert proc.name st.manual_overrides
      else st.manual_overrides.erase proc.name) := by
  show (commitStage _ _ _ _ _ _ _ _).state.manual_overrides = _
  rw [commitStage_overrides]

theorem runTick_focus_ok_some (st : AppState) (proc : ProcessInfo)
    (ime : ImeStatus) (reading : Option (Int × Int)) (act : Except Unit Bool)
    (now : Int) :
    (runTick st (WindowQueryResult.ok (some proc)) ime reading act now).state.focus =
      some ⟨some proc, ime,
        (tickDecision st.saved_config st.focus
          (st.manual_override_for proc.name) proc.name ime
          st.last_cursor_pos reading).manualChange, now⟩ := by
  show (commitStage _ _ _ _ _ _ _ _).state.focus = _
  rw [commitStage_focus]

theorem runTick_invoked_ok_some (st : AppState) (proc : ProcessInfo)
    (ime : ImeStatus) (reading : Option (Int × Int)) (act : Except Unit Bool)
    (now : Int) :
    (runTick st (WindowQueryResult.ok (some proc)) ime reading act now).actuatorInvoked =
      (tickDecision st.saved_config st.focus
        (st.manual_override_for proc.name) proc.name ime
        st.last_cursor_pos reading).shouldSwitch := by
  show (commitStage _ _ _ _ _ _ _ _).actuatorInvoked = _
  rw [commitStage_invoked]

theorem runTick_saved (st : AppState) (win : WindowQueryResult)
    (ime : ImeStatus) (reading : Option (Int × Int)) (act : Except Unit Bool)
    (now : Int) :
    (runTick st win ime reading act now).state.saved_config =
      st.saved_config := by
  cases win with
  | err => rfl
  | ok w =>
    cases w with
    | none => rfl
    | some proc =>
      show (commitStage _ _ _ _ _ _ _ _).state.saved_config = _
      rw [commitStage_saved]

theorem runTick_not_selected (st : AppState) (proc : ProcessInfo)
    (ime : ImeStatus) (reading : Option (Int × Int)) (act : Except Unit Bool)
    (now : Int) (h : proc.name ∉ st.saved_config.selected_processes) :
    (runTick st (WindowQueryResult.ok (some proc)) ime reading act now).state.manual_overrides
      = st.manual_overrides := by
  rw [runTick_overrides]
  rw [tickDecision_not_selected _ _ _ _ _ _ _ h]
  cases hm : st.manual_override_for proc.name with
  | true =>
    have hmem : proc.name ∈ st.manual_overrides :=
      (manual_override_for_true st proc.name).mp hm
    simp [Finset.insert_eq_self.mpr hmem]
  | false =>
    have hmem : proc.name ∉ st.manual_overrides := by
      intro hc
      rw [(manual_override_for_true st proc.name).mpr hc] at hm
      cases hm
    simp [Finset.erase_eq_of_not_mem hmem]

theorem runTick_preserves_invariant (st : AppState) (win : WindowQueryResult)
    (ime : ImeStatus) (reading : Option (Int × Int)) (act : Except Unit Bool)
    (now : Int) (h : OverrideInvariant st) :
    OverrideInvariant (runTick st win ime reading act now).state := by
  cases win with
  | err => exact h
  | ok w =>
    cases w with
    | none => exact h
    | some proc =>
      intro n hn
      rw [runTick_saved]
      rw [runTick_overrides] at hn
      by_cases hsel : proc.name ∈ st.saved_config.selected_processes
      · split at hn
        · rcases Finset.mem_insert.mp hn with rfl | hn'
          · exact hsel
          · exact h n hn'
        · exact h n (Finset.mem_of_mem_erase hn)
      · rw [tickDecision_not_selected _ _ _ _ _ _ _ hsel] at hn
        cases hm : st.manual_override_for proc.name with
        | true =>
          rw [hm] at hn
          simp only [if_pos rfl] at hn
          rcases Finset.mem_insert.mp hn with rfl | hn'
          · exact absurd (h proc.name ((manual_override_for_true st proc.name).mp hm)) hsel
          · exact h n hn'
        | false =>
          rw [hm] at hn
          simp only [Bool.false_eq_true, if_neg] at hn
          exact h n (Finset.mem_of_mem_erase hn)

theorem selectedStage_flag_iff (sel useAuto : Bool)
    (prev : Option FocusSnapshotInternal) (name : String) (ime : ImeStatus) :
    (selectedStage sel useAuto prev name ime false).1 = true ↔
      (sel = true ∧ hysteresisCond prev name ime = true) := by
  unfold selectedStage
  cases sel with
  | false => simp
  | true =>
    cases hc : hysteresisCond prev name ime with
    | false => simp [hc]
    | true =>
      constructor
      · intro _; exact ⟨rfl, rfl⟩
      · intro _
        have him : ime = ImeStatus.Original := by
          unfold hysteresisCond at hc
          cases prev with
          | none => cases hc
          | some p =>
            dsimp only at hc
            cases hp : p.process with
            | none => rw [hp] at hc; cases hc
            | some pp =>
              rw [hp] at hc
              simp only [Bool.and_eq_true, decide_eq_true_eq] at hc
              exact hc.2
        simp [hc, him]

theorem selectedStage_unknown (sel useAuto : Bool)
    (prev : Option FocusSnapshotInternal) (name : String) (m0 : Bool) :
    (selectedStage sel useAuto prev name ImeStatus.Unknown m0).1 = m0 := by
  unfold selectedStage hysteresisCond
  cases sel with
  | false => rfl
  | true =>
    cases prev with
    | none => simp
    | some p =>
      dsimp only
      cases hp : p.process with
      | none => simp
      | some pp => simp

theorem hysteresisCond_iff (prev : Option FocusSnapshotInternal)
    (name : String) (ime : ImeStatus) :
    hysteresisCond prev name ime = true ↔
      (∃ p pp, prev = some p ∧ p.process = some pp ∧ pp.name = name ∧
        p.ime_status = ImeStatus.English ∧ ime = ImeStatus.Original) := by
  unfold hysteresisCond
  cases prev with
  | none =>
    dsimp only
    constructor
    · intro hc; cases hc
    · rintro ⟨q, qq, hq, _⟩; cases hq
  | some p =>
    dsimp only
    cases hp : p.process with
    | none =>
      dsimp only
      constructor
      · intro hc; cases hc
      · rintro ⟨q, qq, hq, hqp, _⟩
        injection hq with hq
        subst hq
        rw [hp] at hqp
        cases hqp
    | some pp =>
      dsimp only
      simp only [Bool.and_eq_true, decide_eq_true_eq]
      constructor
      · rintro ⟨⟨h1, h2⟩, h3⟩
        exact ⟨p, pp, rfl, hp, h1, h2, h3⟩
      · rintro ⟨q, qq, hq, hqp, h1, h2, h3⟩
        injection hq with hq
        subst hq
        rw [hp] at hqp
        injection hqp with hqp
        subst hqp
        exact ⟨⟨h1, h2⟩, h3⟩


theorem selectedStage_hysteresis (useAuto : Bool)
    (prev : Option FocusSnapshotInternal) (name : String) (m0 : Bool)
    (h : hysteresisCond prev name ImeStatus.Original = true) :
    selectedStage true useAuto prev name ImeStatus.Original m0 =
      (true, false) := by
  unfold selectedStage
  simp [h]

theorem hysteresisCond_not_original (prev : Option FocusSnapshotInternal)
    (name : String) (ime : ImeStatus) (h : ime ≠ ImeStatus.Original) :
    hysteresisCond prev name ime = false := by
  unfold hysteresisCond
  cases prev with
  | none => rfl
  | some p =>
    dsimp only
    cases hp : p.process with
    | none => rfl
    | some pp => simp [h]

theorem selectedStage_english (useAuto : Bool)
    (prev : Option FocusSnapshotInternal) (name : String) (m0 : Bool) :
    selectedStage true useAuto prev name ImeStatus.English m0 =
      (false, false) := by
  unfold selectedStage
  rw [hysteresisCond_not_original prev name ImeStatus.English (by simp)]
  cases m0 <;> simp

theorem mouseStage_no_fire (sel useMouse : Bool) (s : ℚ)
    (lastCursor reading : Option (Int × Int)) (name : String)
    (ime : ImeStatus) (m sw : Bool)
    (h : ∀ pc pos, lastCursor = some pc → reading = some pos →
      cursorMovedAtLeast pc pos s = false) :
    (mouseStage sel useMouse s lastCursor reading name ime m sw).manualChange = m ∧
    (mouseStage sel useMouse s lastCursor reading name ime m sw).shouldSwitch = sw := by
  unfold mouseStage
  split
  · cases reading with
    | none => exact ⟨rfl, rfl⟩
    | some pos =>
      cases lastCursor with
      | none => exact ⟨rfl, rfl⟩
      | some pc =>
        dsimp only
        rw [h pc pos rfl rfl]
        exact ⟨rfl, rfl⟩
  · exact ⟨rfl, rfl⟩

theorem mouseStage_fire (s : ℚ) (pc pos : Int × Int) (name : String)
    (ime : ImeStatus) (m sw : Bool)
    (hmoved : cursorMovedAtLeast pc pos s = true)
    (hime : ime = ImeStatus.Original ∨ ime = ImeStatus.Unknown) :
    mouseStage true true s (some pc) (some pos) name ime m sw =
      ⟨false, true, some (mouseMoveMsg name), some pos⟩ := by
  unfold mouseStage
  rcases hime with rfl | rfl <;> simp [hmoved]

theorem mouseStage_english (sel useMouse : Bool) (s : ℚ)
    (lastCursor reading : Option (Int × Int)) (name : String) (sw : Bool) :
    (mouseStage sel useMouse s lastCursor reading name ImeStatus.English false sw).manualChange = false ∧
    (mouseStage sel useMouse s lastCursor reading name ImeStatus.English false sw).shouldSwitch = sw := by
  unfold mouseStage
  split
  · cases reading with
    | none => exact ⟨rfl, rfl⟩
    | some pos =>
      cases lastCursor with
      | none => exact ⟨rfl, rfl⟩
      | some pc =>
        dsimp only
        split
        · simp
        · exact ⟨rfl, rfl⟩
  · exact ⟨rfl, rfl⟩

theorem save_changes_establishes (st : AppState) (h : st.dirty = true) :
    OverrideInvariant (st.save_changes true).1 := by
  unfold AppState.save_changes
  rw [h]
  dsimp only
  intro n hn
  exact (Finset.mem_filter.mp hn).2

theorem save_changes_preserves (st : AppState) (b : Bool)
    (h : OverrideInvariant st) : OverrideInvariant (st.save_changes b).1 := by
  unfold AppState.save_changes
  cases hd : st.dirty with
  | false => exact h
  | true =>
    cases b with
    | true =>
      dsimp only
      intro n hn
      exact (Finset.mem_filter.mp hn).2
    | false => exact h

theorem add_preserves (st : AppState) (name : String)
    (h : OverrideInvariant st) :
    OverrideInvariant (st.add_selected_process name).1 := by
  unfold AppState.add_selected_process
  split
  · exact h
  · exact h

theorem remove_preserves (st : AppState) (name : String)
    (h : OverrideInvariant st) :
    OverrideInvariant (st.remove_selected_process name).1 := by
  unfold AppState.remove_selected_process
  intro n hn
  exact h n (Finset.mem_of_mem_erase hn)

theorem set_manual_override_inserts (st : AppState) (name : String) :
    name ∈ (st.set_manual_override name true).manual_overrides := by
  unfold AppState.set_manual_override
  exact Finset.mem_insert_self name st.manual_overrides


/-- Claim C7: for every tick whose focused process is not in the
selected-process allowlist, the OverrideSet membership is unmodified,
`shouldSwitch` is false, and the actuator is never invoked. -/
theorem C7_not_selected_frame (st : AppState) (proc : ProcessInfo)
    (ime : ImeStatus) (reading : Option (Int × Int)) (act : Except Unit Bool)
    (now : Int) (h : proc.name ∉ st.saved_config.selected_processes) :
    (runTick st (WindowQueryResult.ok (some proc)) ime reading act now).state.manual_overrides
        = st.manual_overrides ∧
    (tickDecision st.saved_config st.focus (st.manual_override_for proc.name)
        proc.name ime st.last_cursor_pos reading).shouldSwitch = false ∧
    (runTick st (WindowQueryResult.ok (some proc)) ime reading act now).actuatorInvoked
        = false := by
  refine ⟨runTick_not_selected st proc ime reading act now h, ?_, ?_⟩
  · rw [tickDecision_not_selected _ _ _ _ _ _ _ h]
  · rw [runTick_invoked_ok_some, tickDecision_not_selected _ _ _ _ _ _ _ h]

/-- Witness for C7 at a concrete unselected process. -/
theorem C7_witness :
    (runTick (AppState.new AppConfig.default)
        (WindowQueryResult.ok (some fooProc)) ImeStatus.Original none
        (Except.ok false) 2).state.manual_overrides
      = (AppState.new AppConfig.default).manual_overrides ∧
    (tickDecision (AppState.new AppConfig.default).saved_config
        (AppState.new AppConfig.default).focus
        ((AppState.new AppConfig.default).manual_override_for fooProc.name)
        fooProc.name ImeStatus.Original
        (AppState.new AppConfig.default).last_cursor_pos none).shouldSwitch = false ∧
    (runTick (AppState.new AppConfig.default)
        (WindowQueryResult.ok (some fooProc)) ImeStatus.Original none
        (Except.ok false) 2).actuatorInvoked = false :=
  C7_not_selected_frame (AppState.new AppConfig.default) fooProc
    ImeStatus.Original none (Except.ok false) 2 (by decide)

/-- Claim C9: `remove_selected_process(name)` deletes the name's
manual-override entry unconditionally; when the name was not in the draft
selected list the call reports `false` but the override entry is still
gone. -/
theorem C9_remove_clears_override (st : AppState) (name : String) :
    (st.remove_selected_process name).1.manual_overrides =
        st.manual_overrides.erase name ∧
    name ∉ (st.remove_selected_process name).1.manual_overrides ∧
    (name ∉ st.draft_config.selected_processes →
      (st.remove_selected_process name).2 = false) := by
  refine ⟨rfl, Finset.not_mem_erase name _, ?_⟩
  intro h
  unfold AppState.remove_selected_process
  dsimp only
  have hfe : st.draft_config.selected_processes.filter
      (fun p => decide (p ≠ name)) = st.draft_config.selected_processes := by
    apply List.filter_eq_self.mpr
    intro a ha
    exact decide_eq_true fun he => h (he ▸ ha)
  rw [hfe]
  simp

/-- Witness for C9 at a concrete state whose override set holds a name
absent from the draft list. -/
theorem C9_witness :
    (strayOverrideState.remove_selected_process "foo.exe").1.manual_overrides =
        strayOverrideState.manual_overrides.erase "foo.exe" ∧
    "foo.exe" ∉ (strayOverrideState.remove_selected_process "foo.exe").1.manual_overrides ∧
    (strayOverrideState.remove_selected_process "foo.exe").2 = false := by
  have h := C9_remove_clears_override strayOverrideState "foo.exe"
  exact ⟨h.1, h.2.1, h.2.2 (by decide)⟩

/-- Claim C10: with no unsaved changes (`dirty = false`), `save_changes`
returns `Ok(false)`, leaves the whole state unchanged, and writes nothing
to persistent storage. -/
theorem C10_save_no_changes (st : AppState) (b : Bool)
    (h : st.dirty = false) :
    st.save_changes b = (st, Except.ok false, none) := by
  unfold AppState.save_changes
  rw [h]
  simp

/-- Witness for C10 at the freshly constructed state. -/
theorem C10_witness :
    (AppState.new AppConfig.default).save_changes true =
      (AppState.new AppConfig.default, Except.ok false, none) :=
  C10_save_no_changes (AppState.new AppConfig.default) true rfl

/-- Claim C3 as stated is false: when the focused-process query errors,
the tick does NOT behave like the no-focused-window case.  At a state with
a previous snapshot, the error branch leaves the state untouched (the old
snapshot, whose process is not `none`, remains committed) and emits no
focus-changed event at all. -/
theorem C3_counterexample :
    runTick priorFocusState WindowQueryResult.err ImeStatus.Unknown none
        (Except.ok false) 5 = ⟨priorFocusState, [], false⟩ ∧
    priorFocusState.focus = some ⟨some notepad, ImeStatus.English, false, 0⟩ ∧
    (some notepad : Option ProcessInfo) ≠ none :=
  ⟨rfl, rfl, by decide⟩

/-- Claim C3 (amended): a focused-process query failure is never fatal
and is only logged; the tick commits nothing (previous FocusSnapshot and
OverrideSet are left untouched), emits no event, and does not invoke the
actuator — unlike the no-focused-window case, which commits a `none`
snapshot and emits focus-changed(none). -/
theorem C3_query_error_is_noop (st : AppState) (ime : ImeStatus)
    (reading : Option (Int × Int)) (act : Except Unit Bool) (now : Int) :
    runTick st WindowQueryResult.err ime reading act now = ⟨st, [], false⟩ :=
  rfl

/-- Claim C1 as stated is false: in Scenario A the committed snapshot
carries the observed pre-attempt mode `Original`, not the target mode,
even though the actuator was invoked and reported a successful switch. -/
theorem C1_counterexample :
    (runTick scenarioState (WindowQueryResult.ok (some notepad))
        ImeStatus.Original none (Except.ok true) 0).state.focus =
      some ⟨some notepad, ImeStatus.Original, false, 0⟩ ∧
    (runTick scenarioState (WindowQueryResult.ok (some notepad))
        ImeStatus.Original none (Except.ok true) 0).actuatorInvoked = true ∧
    ImeStatus.Original ≠ ImeStatus.English := by decide

/-- Claim C1 (amended): Scenario A — config `{autoSwitchEnabled: true,
selected: ["notepad.exe"]}`, tick observes `(notepad.exe, Original)` with
no prior snapshot — gives `shouldSwitch = true`, the actuator is invoked,
and the committed snapshot is `{process: notepad.exe, mode: Original (the
observed pre-attempt reading), manualOverride: false}`; the override set
stays empty. -/
theorem C1_scenarioA_amended :
    (tickDecision scenarioConfig none false "notepad.exe" ImeStatus.Original
        none none).shouldSwitch = true ∧
    (runTick scenarioState (WindowQueryResult.ok (some notepad))
        ImeStatus.Original none (Except.ok true) 0).actuatorInvoked = true ∧
    (runTick scenarioState (WindowQueryResult.ok (some notepad))
        ImeStatus.Original none (Except.ok true) 0).state.focus =
      some ⟨some notepad, ImeStatus.Original, false, 0⟩ ∧
    (runTick scenarioState (WindowQueryResult.ok (some notepad))
        ImeStatus.Original none (Except.ok true) 0).state.manual_overrides = ∅ := by
  decide


/-- Claim C4 as stated is false: with the override active, the process
selected, mouse events on, a previous cursor present and the displacement
exactly at the sensitivity (distance ((0,0),(3,4)) = 5 = sensitivity), a
tick observing English mode clears the override but leaves `shouldSwitch`
false and queues no message — the claim omits the `mode ≠ target`
condition of the cursor rule. -/
theorem C4_counterexample :
    distance (0, 0) (3, 4) = ((5 : ℚ) : ℝ) ∧
    boundaryConfig.mouse_sensitivity = 5 ∧
    tickDecision boundaryConfig none true "notepad.exe" ImeStatus.English
        (some (0, 0)) (some (3, 4)) = ⟨false, false, none, some (3, 4)⟩ := by
  refine ⟨?_, rfl, by decide⟩
  unfold distance
  norm_num [distSq]
  rw [show (25 : ℝ) = 5 ^ 2 by norm_num, Real.sqrt_sq (by norm_num)]

/-- Claim C4 (amended): with the process selected, mouse events enabled,
a previous cursor position present, `distance(prev, cur)` exactly equal to
the sensitivity (the test is inclusive `≥`), and the current mode
non-target (Original or Unknown), the override is cleared, `shouldSwitch`
is forced true, and the mouse-move status message parameterized by the
process name is queued. -/
theorem C4_cursor_boundary_amended (cfg : AppConfig)
    (prev : Option FocusSnapshotInternal) (name : String) (ime : ImeStatus)
    (pc pos : Int × Int)
    (hsel : name ∈ cfg.selected_processes)
    (hmouse : cfg.use_mouse_move_event = true)
    (hdist : distance pc pos = (cfg.mouse_sensitivity : ℝ))
    (hime : ime = ImeStatus.Original ∨ ime = ImeStatus.Unknown) :
    tickDecision cfg prev true name ime (some pc) (some pos) =
      ⟨false, true, some (mouseMoveMsg name), some pos⟩ := by
  have hmoved : cursorMovedAtLeast pc pos cfg.mouse_sensitivity = true :=
    (cursorMovedAtLeast_iff_distance pc pos _).mpr (le_of_eq hdist.symm)
  unfold tickDecision
  dsimp only
  rw [decide_eq_true hsel, hmouse]
  exact mouseStage_fire _ pc pos name ime _ _ hmoved hime

/-- Witness for C4 at the exact boundary `distance((0,0),(3,4)) = 5`. -/
theorem C4_witness :
    tickDecision boundaryConfig none true "notepad.exe" ImeStatus.Original
        (some (0, 0)) (some (3, 4)) =
      ⟨false, true, some (mouseMoveMsg "notepad.exe"), some (3, 4)⟩ := by
  refine C4_cursor_boundary_amended boundaryConfig none "notepad.exe"
    ImeStatus.Original (0, 0) (3, 4) (by decide) rfl ?_ (Or.inl rfl)
  show distance (0, 0) (3, 4) = ((5 : ℚ) : ℝ)
  unfold distance
  norm_num [distSq]
  rw [show (25 : ℝ) = 5 ^ 2 by norm_num, Real.sqrt_sq (by norm_num)]

/-- Claim C5 as stated is false: the hysteresis antecedent it gives
(same process name, previous mode English, current mode non-target) holds
at this tick, yet the override is not set, because the focused process is
not selected — the rule only runs inside the selected-process branch. -/
theorem C5_counterexample :
    unselectedPrevState.focus =
      some ⟨some notepad, ImeStatus.English, false, 0⟩ ∧
    ImeStatus.Original ≠ ImeStatus.English ∧
    "notepad.exe" ∉ (runTick unselectedPrevState
        (WindowQueryResult.ok (some notepad)) ImeStatus.Original none
        (Except.ok false) 1).state.manual_overrides ∧
    (runTick unselectedPrevState (WindowQueryResult.ok (some notepad))
        ImeStatus.Original none (Except.ok false) 1).state.focus =
      some ⟨some notepad, ImeStatus.Original, false, 1⟩ := by decide

/-- Claim C5 (amended): within a tick the flag is raised from false to
true exactly when the process is selected and the previous snapshot names
the same process with mode English while the current reading is Original;
an Unknown reading never changes the flag in this stage; and when the
hysteresis guard fires and the cursor-movement rule does not,
`manualChange` is true and `shouldSwitch` is false. -/
theorem C5_hysteresis_amended :
    (∀ sel useAuto prev name ime,
      (selectedStage sel useAuto prev name ime false).1 = true ↔
        (sel = true ∧ ∃ p pp, prev = some p ∧ p.process = some pp ∧
          pp.name = name ∧ p.ime_status = ImeStatus.English ∧
          ime = ImeStatus.Original)) ∧
    (∀ sel useAuto prev name m0,
      (selectedStage sel useAuto prev name ImeStatus.Unknown m0).1 = m0) ∧
    (∀ cfg prev name m0 lastCursor reading,
      name ∈ cfg.selected_processes →
      hysteresisCond prev name ImeStatus.Original = true →
      (∀ pc pos, lastCursor = some pc → reading = some pos →
        cursorMovedAtLeast pc pos cfg.mouse_sensitivity = false) →
      (tickDecision cfg prev m0 name ImeStatus.Original lastCursor
          reading).manualChange = true ∧
      (tickDecision cfg prev m0 name ImeStatus.Original lastCursor
          reading).shouldSwitch = false) := by
  refine ⟨?_, selectedStage_unknown, ?_⟩
  · intro sel useAuto prev name ime
    rw [selectedStage_flag_iff]
    exact and_congr_right fun _ => hysteresisCond_iff prev name ime
  · intro cfg prev name m0 lastCursor reading hsel hhyst hnf
    unfold tickDecision
    dsimp only
    rw [decide_eq_true hsel, selectedStage_hysteresis _ _ _ _ hhyst]
    exact mouseStage_no_fire _ _ _ _ _ _ _ _ _ hnf

/-- Witness for C5 at the concrete hysteresis tick of Scenario C. -/
theorem C5_witness :
    (tickDecision scenarioConfig
        (some ⟨some notepad, ImeStatus.English, false, 0⟩) false
        "notepad.exe" ImeStatus.Original none none).manualChange = true ∧
    (tickDecision scenarioConfig
        (some ⟨some notepad, ImeStatus.English, false, 0⟩) false
        "notepad.exe" ImeStatus.Original none none).shouldSwitch = false := by
  exact C5_hysteresis_amended.2.2 scenarioConfig
    (some ⟨some notepad, ImeStatus.English, false, 0⟩) "notepad.exe" false
    none none (by decide) (by decide)
    (by intro pc pos hpc hpos; cases hpc)

/-- Claim C6 as stated is false: with an active override on an
unselected process and a current English reading, the tick leaves the
flag set and commits it as true — the self-clear rule only runs inside
the selected-process branch. -/
theorem C6_counterexample :
    strayOverrideState.manual_override_for "foo.exe" = true ∧
    "foo.exe" ∉ strayOverrideState.saved_config.selected_processes ∧
    "foo.exe" ∈ (runTick strayOverrideState
        (WindowQueryResult.ok (some fooProc)) ImeStatus.English none
        (Except.ok false) 3).state.manual_overrides ∧
    (runTick strayOverrideState (WindowQueryResult.ok (some fooProc))
        ImeStatus.English none (Except.ok false) 3).state.focus =
      some ⟨some fooProc, ImeStatus.English, true, 3⟩ := by decide

/-- Claim C6 (amended): for every tick on a selected process with the
manual override active and an English reading, the flag is cleared before
switch eligibility (so `shouldSwitch` is false), and the cleared value is
committed: the name is removed from the OverrideSet. -/
theorem C6_self_clear_amended (st : AppState) (proc : ProcessInfo)
    (reading : Option (Int × Int)) (act : Except Unit Bool) (now : Int)
    (hsel : proc.name ∈ st.saved_config.selected_processes)
    (hov : st.manual_override_for proc.name = true) :
    (tickDecision st.saved_config st.focus
        (st.manual_override_for proc.name) proc.name ImeStatus.English
        st.last_cursor_pos reading).manualChange = false ∧
    (tickDecision st.saved_config st.focus
        (st.manual_override_for proc.name) proc.name ImeStatus.English
        st.last_cursor_pos reading).shouldSwitch = false ∧
    proc.name ∉ (runTick st (WindowQueryResult.ok (some proc))
        ImeStatus.English reading act now).state.manual_overrides := by
  have hd : tickDecision st.saved_config st.focus
      (st.manual_override_for proc.name) proc.name ImeStatus.English
      st.last_cursor_pos reading =
      mouseStage true st.saved_config.use_mouse_move_event
        st.saved_config.mouse_sensitivity st.last_cursor_pos reading
        proc.name ImeStatus.English false false := by
    unfold tickDecision
    dsimp only
    rw [decide_eq_true hsel,
      selectedStage_english st.saved_config.use_auto_to_en st.focus proc.name
        (st.manual_override_for proc.name)]
  have hm := mouseStage_english true st.saved_config.use_mouse_move_event
    st.saved_config.mouse_sensitivity st.last_cursor_pos reading proc.name
    false
  refine ⟨?_, ?_, ?_⟩
  · rw [hd]; exact hm.1
  · rw [hd]; exact hm.2
  · rw [runTick_overrides, hd, hm.1]
    rw [if_neg (by simp)]
    exact Finset.not_mem_erase _ _

/-- Witness for C6 at a selected process with an active override. -/
theorem C6_witness :
    (tickDecision selectedOverrideState.saved_config
        selectedOverrideState.focus
        (selectedOverrideState.manual_override_for "notepad.exe")
        "notepad.exe" ImeStatus.English
        selectedOverrideState.last_cursor_pos none).manualChange = false ∧
    (tickDecision selectedOverrideState.saved_config
        selectedOverrideState.focus
        (selectedOverrideState.manual_override_for "notepad.exe")
        "notepad.exe" ImeStatus.English
        selectedOverrideState.last_cursor_pos none).shouldSwitch = false ∧
    "notepad.exe" ∉ (runTick selectedOverrideState
        (WindowQueryResult.ok (some notepad)) ImeStatus.English none
        (Except.ok false) 4).state.manual_overrides :=
  C6_self_clear_amended selectedOverrideState notepad none (Except.ok false) 4
    (by decide) (by decide)

/-- Claim C2 as stated is false: starting from a state satisfying the
OverrideSet invariant, the public `set_manual_override` command inserts a
name that is in no selected-process list, leaving the invariant broken
after that operation. -/
theorem C2_counterexample :
    OverrideInvariant (AppState.new AppConfig.default) ∧
    "foo.exe" ∉ (AppState.new AppConfig.default).saved_config.selected_processes ∧
    "foo.exe" ∉ (AppState.new AppConfig.default).draft_config.selected_processes ∧
    ¬ OverrideInvariant
        ((AppState.new AppConfig.default).set_manual_override "foo.exe" true) := by
  decide

/-- Claim C2 (amended): the monitor tick commit, configuration save
(which purges entries for deselected processes), process add and process
remove all preserve the OverrideSet ⊆ allowlist invariant, and a
successful save of a dirty state establishes it outright; but the public
`set_manual_override(name, true)` command inserts `name` unconditionally,
so the invariant does not survive that operation. -/
theorem C2_override_invariant_amended :
    (∀ st win ime reading act now, OverrideInvariant st →
      OverrideInvariant (runTick st win ime reading act now).state) ∧
    (∀ st : AppState, st.dirty = true →
      OverrideInvariant (st.save_changes true).1) ∧
    (∀ (st : AppState) b, OverrideInvariant st →
      OverrideInvariant (st.save_changes b).1) ∧
    (∀ (st : AppState) name, OverrideInvariant st →
      OverrideInvariant (st.add_selected_process name).1) ∧
    (∀ (st : AppState) name, OverrideInvariant st →
      OverrideInvariant (st.remove_selected_process name).1) ∧
    (∀ (st : AppState) name,
      name ∈ (st.set_manual_override name true).manual_overrides) :=
  ⟨runTick_preserves_invariant, save_changes_establishes,
    save_changes_preserves, add_preserves, remove_preserves,
    set_manual_override_inserts⟩

/-- Witness for C2 instantiating the tick, the save and the
unconditional insert at concrete states. -/
theorem C2_witness :
    OverrideInvariant (runTick scenarioState
        (WindowQueryResult.ok (some notepad)) ImeStatus.Original none
        (Except.ok true) 0).state ∧
    OverrideInvariant (dirtyState.save_changes true).1 ∧
    "foo.exe" ∈ ((AppState.new AppConfig.default).set_manual_override
        "foo.exe" true).manual_overrides :=
  ⟨C2_override_invariant_amended.1 scenarioState _ _ _ _ _ (by decide),
    C2_override_invariant_amended.2.1 dirtyState rfl,
    C2_override_invariant_amended.2.2.2.2.2 (AppState.new AppConfig.default)
      "foo.exe"⟩

/-- Claim C8: `should_emit_status` returns true iff no message is
remembered, or the remembered message differs structurally (key or
parameter map) from the argument, or the elapsed time since the recorded
emission is ≥ the cooldown; `record_status` unconditionally overwrites
the single remembered record; a second identical message within the
cooldown is refused while a structurally different one passes regardless
of elapsed time; and parameter maps built from the same pairs in either
order are equal (order-independent structural equality). -/
theorem C8_debounce :
    (∀ (st : AppState) msg c now, st.should_emit_status msg c now = true ↔
      (st.last_status_record = none ∨
        ∃ r, st.last_status_record = some r ∧
          (¬(r.message.key = msg.key ∧ r.message.values = msg.values) ∨
            now - r.atTime ≥ c))) ∧
    (∀ (st : AppState) msg now,
      (st.record_status msg now).last_status_record = some ⟨msg, now⟩) ∧
    (∀ (st : AppState) msg c now1 now2, now2 - now1 < c →
      (st.record_status msg now1).should_emit_status msg c now2 = false) ∧
    (∀ (st : AppState) msg1 msg2 c now1 now2,
      msg1.key ≠ msg2.key ∨ msg1.values ≠ msg2.values →
      (st.record_status msg1 now1).should_emit_status msg2 c now2 = true) ∧
    (∀ key k1 v1 k2 v2, k1 ≠ k2 →
      StatusMessage.withValues key [(k1, v1), (k2, v2)] =
        StatusMessage.withValues key [(k2, v2), (k1, v1)]) := by
  refine ⟨?_, fun st msg now => rfl, ?_, ?_, ?_⟩
  · intro st msg c now
    unfold AppState.should_emit_status
    cases hr : st.last_status_record with
    | none => simp
    | some r =>
      dsimp only
      by_cases hcond : r.message.key = msg.key ∧ r.message.values = msg.values
      · rw [if_pos hcond]
        simp only [decide_eq_true_eq]
        constructor
        · intro hge
          exact Or.inr ⟨r, rfl, Or.inr hge⟩
        · rintro (hnone | ⟨q, hq, hne | hge⟩)
          · cases hnone
          · injection hq with hq
            subst hq
            exact absurd hcond hne
          · injection hq with hq
            subst hq
            exact hge
      · rw [if_neg hcond]
        constructor
        · intro _
          exact Or.inr ⟨r, rfl, Or.inl hcond⟩
        · intro _
          rfl
  · intro st msg c now1 now2 h
    unfold AppState.should_emit_status AppState.record_status
    dsimp only
    rw [if_pos ⟨rfl, rfl⟩]
    exact decide_eq_false (not_le.mpr h)
  · intro st msg1 msg2 c now1 now2 h
    unfold AppState.should_emit_status AppState.record_status
    dsimp only
    rw [if_neg ?_]
    rintro ⟨h1, h2⟩
    rcases h with hk | hv
    · exact hk h1
    · exact hv h2
  · intro key k1 v1 k2 v2 h
    unfold StatusMessage.withValues
    dsimp only [List.foldl]
    congr 1
    rcases lt_trichotomy k1 k2 with hlt | heq | hgt
    · simp [mapInsert, hlt, not_lt.mpr hlt.le, hlt.ne']
    · exact absurd heq h
    · simp [mapInsert, hgt, not_lt.mpr hgt.le, hgt.ne']

/-- Witness for C8: concrete refusal within the cooldown, acceptance of
a different message and order independence of the parameter map. -/
theorem C8_witness :
    ((AppState.new AppConfig.default).record_status
        (mouseMoveMsg "a.exe") 0).should_emit_status
        (mouseMoveMsg "a.exe") 1000 500 = false ∧
    ((AppState.new AppConfig.default).record_status
        (mouseMoveMsg "a.exe") 0).should_emit_status
        (autoSwitchMsg "a.exe") 1000 500 = true ∧
    StatusMessage.withValues "k" [("a", "1"), ("b", "2")] =
      StatusMessage.withValues "k" [("b", "2"), ("a", "1")] :=
  ⟨C8_debounce.2.2.1 (AppState.new AppConfig.default) (mouseMoveMsg "a.exe")
      1000 0 500 (by decide),
    C8_debounce.2.2.2.1 (AppState.new AppConfig.default) (mouseMoveMsg "a.exe")
      (autoSwitchMsg "a.exe") 1000 0 500 (Or.inl (by decide)),
    C8_debounce.2.2.2.2 "k" "a" "1" "b" "2" (by decide)⟩

end Langcon
